import Mathlib

/- Verification development for the rusty_funge Befunge interpreter core.
   The definitions below are a shallow embedding of src/lib.rs (engine,
   funge-space, IP motion, op decoder) and of the history part of
   src/debug.rs (FungeDelta, FungeHist).  The generic cell type parameter I
   of the Rust code is embedded as Int together with an explicit bit width
   field (wbits) used where the width is observable (parse overflow in the
   ampersand op, casts into the cell type).  Rust Vec push/pop at the end of
   the vector is embedded as List cons/head (top of a Vec is the head of the
   corresponding List).  Loops that the source runs without a bound carry a
   Nat fuel argument; running out of fuel yields the marker error
   FungeError.Fuel.  Source behaviour that reaches outside the process
   (stdin, the terminal, the file system, the shell, the clock, the RNG,
   the environment) is marked by the error FungeError.Unmodeled. -/

namespace RustyFunge

/-- Error type of the interpreter, mirroring enum FungeError of src/lib.rs.
CharCast stands for the std char conversion error that the chr function can
raise via try_into (it is not a FungeError in Rust, but Funge::run returns
it unchanged, so the distinction is not observable).  Fuel and Unmodeled
are artifacts of the embedding, see the header comment. -/
inductive FungeError where
  | Casting
  | FileName
  | StringErr
  | Input
  | Version
  | Quit (code : Int)
  | CharCast
  | Fuel
  | Unmodeled
deriving DecidableEq, Repr

/-- Mirrors enum OnError of src/lib.rs. -/
inductive OnError where
  | Ignore
  | Reflect
  | Quit
deriving DecidableEq, Repr

/-- The B98 instruction set of Rules::get_instruction_set: the ords of the
characters of the B98 string literal, which are exactly the codes 33..=64
followed by 91..=126. -/
def b98Set : List Int :=
  ((List.range 32).map (fun i => (33 : Int) + i)) ++
  ((List.range 36).map (fun i => (91 : Int) + i))

/-- Mirrors struct Rules of src/lib.rs. -/
structure Rules where
  instruction_set : List Int
  on_error : OnError
deriving DecidableEq, Repr

/-- Rules::new, the defaults used by Funge::new: B98 set, Reflect policy. -/
def Rules.new : Rules := ⟨b98Set, OnError.Reflect⟩

/-- Positions are pairs of isize, mirroring Vec of length 2 in the source. -/
abbrev Pos := Int × Int

/-- Elementwise vector addition, mirroring fn add of src/lib.rs. -/
def add (a b : Pos) : Pos := (a.1 + b.1, a.2 + b.2)

/-- Elementwise vector subtraction, mirroring fn sub of src/lib.rs. -/
def sub (a b : Pos) : Pos := (a.1 - b.1, a.2 - b.2)

/-- Mirrors fn ord of src/lib.rs: a char converted to its code point.  The
further cast into the cell type is total for the sources appearing in this
development (ASCII at widths of at least 8 bits). -/
def ord (c : Char) : Int := (c.toNat : Int)

/-- Mirrors fn chr of src/lib.rs: cast_int into u32 (Casting on failure),
then u32 to char via try_into (CharCast on surrogates and values above
0x10FFFF). -/
def chr (v : Int) : Except FungeError Char :=
  if v < 0 ∨ 4294967295 < v then .error .Casting
  else if (55296 ≤ v ∧ v ≤ 57343) ∨ 1114111 < v then .error .CharCast
  else .ok (Char.ofNat v.toNat)

/-- cast_int into isize (64 bits on the reference host). -/
def castIsize (v : Int) : Except FungeError Int :=
  if -(2 ^ 63) ≤ v ∧ v < 2 ^ 63 then .ok v else .error .Casting

/-- cast_int into i32, used by the q op for the exit code. -/
def castI32 (v : Int) : Except FungeError Int :=
  if -(2 ^ 31) ≤ v ∧ v < 2 ^ 31 then .ok v else .error .Casting

/-- cast_int from isize into the cell type of width wbits bits. -/
def castCell (wbits : Nat) (v : Int) : Except FungeError Int :=
  if -(2 ^ (wbits - 1)) ≤ v ∧ v < 2 ^ (wbits - 1) then .ok v else .error .Casting

/-- str::parse of the collected digit run in the ampersand op: the input is
a (possibly empty) list of decimal digits; parsing fails on an empty list
and on overflow of the cell type of width wbits. -/
def parseCell (wbits : Nat) (ds : List Char) : Option Int :=
  if ds.isEmpty then none
  else
    let v : Nat := ds.foldl (fun acc c => 10 * acc + (c.toNat - 48)) 0
    if (v : Int) ≤ 2 ^ (wbits - 1) - 1 then some (v : Int) else none

/-- Mirrors struct Stack of src/lib.rs.  The top of the Rust Vec (its last
element) is the head of this list. -/
structure Stack where
  stack : List Int
deriving DecidableEq, Repr

/-- Stack::new. -/
def Stack.new : Stack := ⟨[]⟩

/-- Stack::pop: popping an empty stack yields zero. -/
def Stack.pop : Stack → Int × Stack
  | ⟨[]⟩ => (0, ⟨[]⟩)
  | ⟨v :: rest⟩ => (v, ⟨rest⟩)

/-- Stack::push. -/
def Stack.push (s : Stack) (cell : Int) : Stack := ⟨cell :: s.stack⟩

/-- Stack::extend: each element of cells is pushed in order, so the last
element of cells ends on top. -/
def Stack.extend (s : Stack) (cells : List Int) : Stack := ⟨cells.reverse ++ s.stack⟩

/-- Stack::len. -/
def Stack.len (s : Stack) : Nat := s.stack.length

/-- Mirrors struct StackStack of src/lib.rs.  The top stack (the last
element of the Rust Vec) is the head of this list. -/
structure StackStack where
  stackstack : List Stack
deriving DecidableEq, Repr

/-- StackStack::new: a single empty stack. -/
def StackStack.new : StackStack := ⟨[Stack.new]⟩

/-- StackStack::check_stack: an empty stack of stacks heals itself by
pushing a fresh empty stack. -/
def StackStack.check_stack (ss : StackStack) : StackStack :=
  if ss.stackstack.isEmpty then ⟨[Stack.new]⟩ else ss

/-- StackStack::pop: pop from the current (top) stack after check_stack. -/
def StackStack.pop (ss : StackStack) : Int × StackStack :=
  match ss.check_stack.stackstack with
  | [] => (0, ss.check_stack)
  | top :: rest =>
    let r := top.pop
    (r.1, ⟨r.2 :: rest⟩)

/-- StackStack::push: push onto the current (top) stack after check_stack. -/
def StackStack.push (ss : StackStack) (cell : Int) : StackStack :=
  match ss.check_stack.stackstack with
  | [] => ⟨[Stack.new.push cell]⟩
  | top :: rest => ⟨top.push cell :: rest⟩

/-- StackStack::extend onto the current (top) stack after check_stack. -/
def StackStack.extend (ss : StackStack) (cells : List Int) : StackStack :=
  match ss.check_stack.stackstack with
  | [] => ⟨[Stack.new.extend cells]⟩
  | top :: rest => ⟨top.extend cells :: rest⟩

/-- StackStack::pop_stack: remove and return the top stack; on an empty
stack of stacks a fresh empty stack is returned. -/
def StackStack.pop_stack : StackStack → Stack × StackStack
  | ⟨[]⟩ => (Stack.new, ⟨[]⟩)
  | ⟨top :: rest⟩ => (top, ⟨rest⟩)

/-- StackStack::push_stack. -/
def StackStack.push_stack (ss : StackStack) (s : Stack) : StackStack :=
  ⟨s :: ss.stackstack⟩

/-- StackStack::len_stack: the number of stacks. -/
def StackStack.len_stack (ss : StackStack) : Nat := ss.stackstack.length

/-- StackStack::len: the length of the current (top) stack, zero when there
is no stack. -/
def StackStack.len (ss : StackStack) : Nat :=
  match ss.stackstack with
  | [] => 0
  | top :: _ => top.len

/-- StackStack::clear: replace the top stack by a fresh empty one (pushing
one when there is none). -/
def StackStack.clear (ss : StackStack) : StackStack :=
  let ss1 := if ss.len_stack > 0 then ss.pop_stack.2 else ss
  ss1.push_stack Stack.new

/-- Iterated StackStack::pop collecting the popped cells in pop order. -/
def popN : Nat → StackStack → List Int × StackStack
  | 0, ss => ([], ss)
  | k + 1, ss =>
    let r := ss.pop
    let r2 := popN k r.2
    (r.1 :: r2.1, r2.2)

/-- The loop of the u op for positive n: pop one cell from the
second-from-top stack and push it onto the top stack, n times.  The fall
through case is unreachable because the op guards len_stack at two or
more. -/
def uMoveUp : Nat → StackStack → StackStack
  | 0, ss => ss
  | k + 1, ss =>
    match ss.stackstack with
    | top :: second :: rest =>
      let r := second.pop
      uMoveUp k ⟨top.push r.1 :: r.2 :: rest⟩
    | _ => uMoveUp k ss

/-- The loop of the u op for negative n: pop one cell from the top stack
and push it onto the second-from-top stack, abs n times. -/
def uMoveDown : Nat → StackStack → StackStack
  | 0, ss => ss
  | k + 1, ss =>
    match ss.stackstack with
    | top :: second :: rest =>
      let r := top.pop
      uMoveDown k ⟨r.2 :: second.push r.1 :: rest⟩
    | _ => uMoveDown k ss

/-- Mirrors struct IO of src/lib.rs restricted to its store.  The input and
output function pointers installed by the debug harness (FungeView::new in
src/debug.rs) pop from and append to the store; the stdin/stdout backed
defaults of IO::new are host effects outside the model.  The top of the
Rust Vec store (the next token to pop) is the head of this list. -/
structure IoBuf where
  store : List (List Char)
deriving DecidableEq, Repr

/-- IO::len. -/
def IoBuf.len (io : IoBuf) : Nat := io.store.length

/-- Mirrors struct Rect of src/lib.rs: half open in x and in y. -/
structure Rect where
  left : Int
  right : Int
  top : Int
  bottom : Int
deriving DecidableEq, Repr

/-- Rect::width. -/
def Rect.width (r : Rect) : Int := r.right - r.left

/-- Rect::height. -/
def Rect.height (r : Rect) : Int := r.bottom - r.top

/-- Rect::contains. -/
def Rect.contains (r : Rect) (pos : Pos) : Prop :=
  r.left ≤ pos.1 ∧ pos.1 < r.right ∧ r.top ≤ pos.2 ∧ pos.2 < r.bottom

instance (r : Rect) (pos : Pos) : Decidable (r.contains pos) := by
  unfold Rect.contains; infer_instance

/-- Association list lookup standing for HashMap::get. -/
def alookup : List (Pos × Int) → Pos → Option Int
  | [], _ => none
  | e :: rest, p => if e.1 = p then some e.2 else alookup rest p

/-- Association list removal standing for HashMap::remove. -/
def aremove (l : List (Pos × Int)) (p : Pos) : List (Pos × Int) :=
  l.filter (fun e => e.1 ≠ p)

/-- Association list insertion standing for HashMap::insert (replacing any
previous binding of the key). -/
def ainsert (l : List (Pos × Int)) (p : Pos) (v : Int) : List (Pos × Int) :=
  (p, v) :: aremove l p

/-- Mirrors struct FungeSpace of src/lib.rs: dense original rows plus a
sparse overlay. -/
structure FungeSpace where
  orig_code : List (List Int)
  orig_rect : Rect
  new_code : List (Pos × Int)
  space : Int
deriving DecidableEq, Repr

/-- The Index impl of FungeSpace: dense read inside the original rect,
overlay lookup outside, space (32) by default.  Inside the original rect
the indices are in range for well formed spaces; getD totalises the
panicking Rust indexing. -/
def FungeSpace.get (fs : FungeSpace) (pos : Pos) : Int :=
  if fs.orig_rect.contains pos then
    (fs.orig_code.getD pos.2.toNat []).getD pos.1.toNat fs.space
  else
    match alookup fs.new_code pos with
    | some v => v
    | none => fs.space

/-- FungeSpace::insert: dense write inside the original rect; outside,
writing space removes the overlay cell and any other value stores it. -/
def FungeSpace.insert (fs : FungeSpace) (index : Pos) (op : Int) : FungeSpace :=
  if fs.orig_rect.contains index then
    let row := (fs.orig_code.getD index.2.toNat []).set index.1.toNat op
    { fs with orig_code := fs.orig_code.set index.2.toNat row }
  else if op = fs.space then
    { fs with new_code := aremove fs.new_code index }
  else
    { fs with new_code := ainsert fs.new_code index op }

/-- FungeSpace::new: strip form feeds (code 12), record the covering
rectangle, pad short lines with spaces, store densely.  The caller passes
the source already split into lines. -/
def FungeSpace.new (code : List (List Char)) : FungeSpace :=
  let code := code.map (fun line => line.filter (fun c => c.toNat ≠ 12))
  let width : Nat := (code.map List.length).foldl max 0
  { orig_code := code.map (fun line =>
      line.map ord ++ List.replicate (width - line.length) 32)
    orig_rect := ⟨0, (width : Int), 0, (code.length : Int)⟩
    new_code := []
    space := 32 }

/-- Mirrors struct IP of src/lib.rs.  fingerprint_ops is a map from opcode
to handler in Rust; it is never populated, so only its key set matters. -/
structure IP where
  id : Nat
  position : Pos
  delta : Pos
  offset : Pos
  string : Bool
  stack : StackStack
  fingerprint_ops : List Int
deriving DecidableEq, Repr

/-- Mirrors struct Funge of src/lib.rs.  The extra field wbits is the bit
width of the cell type parameter I of the Rust generics (8, 16, 32, 64 or
128; 64 for the default isize build). -/
structure Funge where
  extent : Rect
  code : FungeSpace
  rules : Rules
  steps : Int
  ips : List IP
  input : IoBuf
  output : IoBuf
  wbits : Nat
deriving DecidableEq, Repr

/-- IP::check_pos: the position lies inside the extent of the engine. -/
def IP.check_pos (_ip : IP) (pos : Pos) (funge : Funge) : Prop :=
  funge.extent.left ≤ pos.1 ∧ pos.1 < funge.extent.right ∧
  funge.extent.top ≤ pos.2 ∧ pos.2 < funge.extent.bottom

instance (ip : IP) (pos : Pos) (funge : Funge) : Decidable (ip.check_pos pos funge) := by
  unfold IP.check_pos; infer_instance

/-- The integers of a half open interval, used to embed Rust range loops
over isize. -/
def intRange (a b : Int) : List Int :=
  (List.range (b - a).toNat).map (fun i => a + (i : Int))

/-- Funge::shrink_extent: four sequential scans that move each side of the
extent to the first row or column containing a non space cell; a side whose
scan finds nothing is left unchanged. -/
def Funge.shrink_extent (f : Funge) : Funge :=
  let f1 :=
    match (intRange f.extent.left f.extent.right).find? (fun x =>
        (intRange f.extent.top f.extent.bottom).any (fun y => f.code.get (x, y) != 32)) with
    | some x => { f with extent := { f.extent with left := x } }
    | none => f
  let f2 :=
    match (intRange f1.extent.left f1.extent.right).reverse.find? (fun x =>
        (intRange f1.extent.top f1.extent.bottom).any (fun y => f1.code.get (x, y) != 32)) with
    | some x => { f1 with extent := { f1.extent with right := x + 1 } }
    | none => f1
  let f3 :=
    match (intRange f2.extent.top f2.extent.bottom).find? (fun y =>
        (intRange f2.extent.left f2.extent.right).any (fun x => f2.code.get (x, y) != 32)) with
    | some y => { f2 with extent := { f2.extent with top := y } }
    | none => f2
  match (intRange f3.extent.top f3.extent.bottom).reverse.find? (fun y =>
      (intRange f3.extent.left f3.extent.right).any (fun x => f3.code.get (x, y) != 32)) with
  | some y => { f3 with extent := { f3.extent with bottom := y + 1 } }
  | none => f3

/-- Funge::grow_extent. -/
def Funge.grow_extent (f : Funge) (position : Pos) : Funge :=
  let e := f.extent
  let e1 := if position.1 < e.left then { e with left := position.1 }
            else if position.1 ≥ e.right then { e with right := position.1 + 1 }
            else e
  let e2 := if position.2 < e1.top then { e1 with top := position.2 }
            else if position.2 ≥ e1.bottom then { e1 with bottom := position.2 + 1 }
            else e1
  { f with extent := e2 }

/-- Funge::insert: write into funge-space, then shrink the extent when a
space was written and grow it otherwise. -/
def Funge.insert (f : Funge) (op : Int) (position : Pos) : Funge :=
  let f1 := { f with code := f.code.insert position op }
  if op = 32 then f1.shrink_extent else f1.grow_extent position

/-- IP::op_at. -/
def IP.op_at (_ip : IP) (funge : Funge) (pos : Pos) : Int := funge.code.get pos

/-- IP::op: the cell under the instruction pointer. -/
def IP.op (ip : IP) (funge : Funge) : Int := ip.op_at funge ip.position

/-- IP::reflect: negate the delta. -/
def IP.reflect (ip : IP) : IP := { ip with delta := (-ip.delta.1, -ip.delta.2) }

/-- IP::turn_right. -/
def IP.turn_right (ip : IP) : IP := { ip with delta := (-ip.delta.2, ip.delta.1) }

/-- IP::turn_left. -/
def IP.turn_left (ip : IP) : IP := { ip with delta := (ip.delta.2, -ip.delta.1) }

/-- IP::split: clone with a new id, used by the t op. -/
def IP.split (ip : IP) (id : Nat) : IP := { ip with id := id }

/-- The wrapping loop of IP::next_pos: step backward by delta until leaving
the extent again, then step once forward.  The fuel bounds the number of
backward steps. -/
def IP.wrapLoop (ip : IP) (funge : Funge) : Nat → Pos → Option Pos
  | 0, _ => none
  | fl + 1, pos =>
    let p := sub pos ip.delta
    if ip.check_pos p funge then ip.wrapLoop funge fl p else some (add p ip.delta)

/-- IP::next_pos: from a position inside the extent, one step by delta (the
source comment: always do one step outside before wrapping); from a
position outside the extent, the Lahey wrap loop. -/
def IP.next_pos (ip : IP) (funge : Funge) (fl : Nat) (pos : Pos) : Option Pos :=
  if ip.check_pos pos funge then some (add pos ip.delta) else ip.wrapLoop funge fl pos

/-- The while loops of IP::next_valid_pos that advance while the current
cell is a space. -/
def IP.skipSpaces (ip : IP) (funge : Funge) : Nat → Pos → Option Pos
  | 0, _ => none
  | fl + 1, pos =>
    if ip.op_at funge pos = 32 then
      (ip.next_pos funge fl pos).bind (ip.skipSpaces funge fl)
    else some pos

/-- The inner while loop of the semicolon handling in IP::next_valid_pos
that advances while the current cell is not a semicolon. -/
def IP.skipToSemicolon (ip : IP) (funge : Funge) : Nat → Pos → Option Pos
  | 0, _ => none
  | fl + 1, pos =>
    if ip.op_at funge pos ≠ 59 then
      (ip.next_pos funge fl pos).bind (ip.skipToSemicolon funge fl)
    else some pos

/-- The outer loop of IP::next_valid_pos outside stringmode: consume a
semicolon comment when on one, skip spaces, and stop as soon as the current
cell is not a semicolon. -/
def IP.nvpLoop (ip : IP) (funge : Funge) : Nat → Pos → Option Pos
  | 0, _ => none
  | fl + 1, pos =>
    (if ip.op_at funge pos = 59 then
      (ip.next_pos funge fl pos).bind (fun p =>
        (ip.skipToSemicolon funge fl p).bind (fun p2 => ip.next_pos funge fl p2))
    else some pos).bind (fun p =>
      (ip.skipSpaces funge fl p).bind (fun p2 =>
        if ip.op_at funge p2 ≠ 59 then some p2 else ip.nvpLoop funge fl p2))

/-- IP::next_valid_pos.  In stringmode: skip a run of spaces when on one
(SGML folding), otherwise one plain next_pos.  Outside stringmode: advance
once unless sitting on a semicolon without the skip flag, then run the
comment and space skipping loop. -/
def IP.next_valid_pos (ip : IP) (funge : Funge) (fl : Nat) (skip : Bool) : Option Pos :=
  let pos := ip.position
  if ip.string then
    if ip.op_at funge pos = 32 then ip.skipSpaces funge fl pos
    else ip.next_pos funge fl pos
  else
    (if ip.op_at funge pos ≠ 59 ∨ skip = true then ip.next_pos funge fl pos
     else some pos).bind (ip.nvpLoop funge fl)

/-- IP::advance: move the instruction pointer to the next valid position. -/
def IP.advance (ip : IP) (funge : Funge) (fl : Nat) (skip : Bool) : Option IP :=
  (ip.next_valid_pos funge fl skip).map (fun p => { ip with position := p })

/-- Iterated IP::movep, as used by the j op. -/
def IP.movepN (ip : IP) (funge : Funge) (fl : Nat) : Nat → Option IP
  | 0 => some ip
  | k + 1 =>
    match ip.next_pos funge fl ip.position with
    | none => none
    | some p => IP.movepN { ip with position := p } funge fl k

/-- IP::not_implemented, wrapped together with the trailing
new_ips.push(self) of IP::exe: the error policy decides between no-op,
reflection and Quit(0). -/
def IP.not_implemented (ip : IP) (funge : Funge) :
    Except FungeError (Funge × List IP × Bool) :=
  match funge.rules.on_error with
  | OnError.Ignore => .ok (funge, [ip], false)
  | OnError.Reflect => .ok (funge, [ip.reflect], false)
  | OnError.Quit => .error (.Quit 0)

/-- IP::exe, the op decoder.  The fuel feeds the self recursion of the
space op and all motion loops.  Ops whose behaviour reaches outside the
process are not embedded and yield FungeError.Unmodeled: the shell op 61,
the random op 63, the file ops 105 and 111, the iterate op 107 (which
recurses through the decoder), and the sysinfo op 121 (clock and
environment); likewise input ops with an empty store fall back to the host
and are unmodeled.  Everything else follows src/lib.rs lines 558 to 974
arm for arm. -/
def IP.exe : Nat → IP → Funge → Int → Nat → Except FungeError (Funge × List IP × Bool)
  | 0, _, _, _, _ => .error .Fuel
  | fl + 1, ip, funge, op, n_ips =>
    if ip.string then
      if op = 34 then .ok (funge, [{ ip with string := false }], false)
      else .ok (funge, [{ ip with stack := ip.stack.push op }], false)
    else if op ∈ ip.fingerprint_ops then
      -- the fingerprint table is never populated; the arm body is empty
      .ok (funge, [ip], false)
    else if 0 ≤ op ∧ op ≤ 255 then
      if op ∈ funge.rules.instruction_set then
        if op = 43 then -- plus
          let r1 := ip.stack.pop
          let r2 := r1.2.pop
          .ok (funge, [{ ip with stack := r2.2.push (r2.1 + r1.1) }], false)
        else if op = 45 then -- minus
          let r1 := ip.stack.pop
          let r2 := r1.2.pop
          .ok (funge, [{ ip with stack := r2.2.push (r2.1 - r1.1) }], false)
        else if op = 42 then -- times
          let r1 := ip.stack.pop
          let r2 := r1.2.pop
          .ok (funge, [{ ip with stack := r2.2.push (r2.1 * r1.1) }], false)
        else if op = 47 then -- divide, zero divisor pushes zero
          let r1 := ip.stack.pop
          let r2 := r1.2.pop
          let v := if r1.1 = 0 then 0 else Int.tdiv r2.1 r1.1
          .ok (funge, [{ ip with stack := r2.2.push v }], false)
        else if op = 37 then -- remainder, zero divisor pushes zero
          let r1 := ip.stack.pop
          let r2 := r1.2.pop
          let v := if r1.1 = 0 then 0 else Int.tmod r2.1 r1.1
          .ok (funge, [{ ip with stack := r2.2.push v }], false)
        else if op = 33 then -- logical not
          let r := ip.stack.pop
          .ok (funge, [{ ip with stack := r.2.push (if r.1 = 0 then 1 else 0) }], false)
        else if op = 96 then -- greater than
          let r1 := ip.stack.pop
          let r2 := r1.2.pop
          .ok (funge, [{ ip with stack := r2.2.push (if r2.1 > r1.1 then 1 else 0) }], false)
        else if op = 62 then .ok (funge, [{ ip with delta := (1, 0) }], false)
        else if op = 60 then .ok (funge, [{ ip with delta := (-1, 0) }], false)
        else if op = 94 then .ok (funge, [{ ip with delta := (0, -1) }], false)
        else if op = 118 then .ok (funge, [{ ip with delta := (0, 1) }], false)
        else if op = 63 then .error .Unmodeled -- random direction
        else if op = 95 then -- horizontal if
          let r := ip.stack.pop
          let d : Pos := if r.1 = 0 then (1, 0) else (-1, 0)
          .ok (funge, [{ ip with stack := r.2, delta := d }], false)
        else if op = 124 then -- vertical if
          let r := ip.stack.pop
          let d : Pos := if r.1 = 0 then (0, 1) else (0, -1)
          .ok (funge, [{ ip with stack := r.2, delta := d }], false)
        else if op = 34 then .ok (funge, [{ ip with string := true }], false)
        else if op = 58 then -- duplicate
          let r := ip.stack.pop
          .ok (funge, [{ ip with stack := (r.2.push r.1).push r.1 }], false)
        else if op = 92 then -- swap
          let r1 := ip.stack.pop
          let r2 := r1.2.pop
          .ok (funge, [{ ip with stack := (r2.2.push r1.1).push r2.1 }], false)
        else if op = 36 then -- discard
          .ok (funge, [{ ip with stack := ip.stack.pop.2 }], false)
        else if op = 46 then -- print number
          let r := ip.stack.pop
          let out := (toString r.1).toList ++ [' ']
          .ok ({ funge with output := ⟨funge.output.store ++ [out]⟩ },
               [{ ip with stack := r.2 }], false)
        else if op = 44 then -- print char
          let r := ip.stack.pop
          match chr r.1 with
          | .error e => .error e
          | .ok c =>
            .ok ({ funge with output := ⟨funge.output.store ++ [[c]]⟩ },
                 [{ ip with stack := r.2 }], false)
        else if op = 35 then -- trampoline
          match ip.next_pos funge fl ip.position with
          | none => .error .Fuel
          | some p => .ok (funge, [{ ip with position := p }], true)
        else if op = 112 then -- put
          let ry := ip.stack.pop
          let rx := ry.2.pop
          let rv := rx.2.pop
          match castIsize ry.1, castIsize rx.1 with
          | .ok y, .ok x =>
            .ok (funge.insert rv.1 (x + ip.offset.1, y + ip.offset.2),
                 [{ ip with stack := rv.2 }], false)
          | .error e, _ => .error e
          | _, .error e => .error e
        else if op = 103 then -- get
          let ry := ip.stack.pop
          let rx := ry.2.pop
          match castIsize ry.1, castIsize rx.1 with
          | .ok y, .ok x =>
            let v := funge.code.get (x + ip.offset.1, y + ip.offset.2)
            .ok (funge, [{ ip with stack := rx.2.push v }], false)
          | .error e, _ => .error e
          | _, .error e => .error e
        else if op = 38 then -- read integer
          match funge.input.store with
          | [] => .error .Unmodeled -- the host is asked for a line
          | tok :: rest =>
            let ds := (tok.dropWhile (fun c => !c.isDigit)).takeWhile (fun c => c.isDigit)
            let funge2 := { funge with input := ⟨rest⟩ }
            match parseCell funge.wbits ds with
            | some v => .ok (funge2, [{ ip with stack := ip.stack.push v }], false)
            | none => .ok (funge2, [ip.reflect], false)
        else if op = 126 then -- read char
          match funge.input.store with
          | [] => .error .Unmodeled -- the host is asked for a line
          | tok :: rest =>
            match tok with
            | [] => .error .Input
            | c :: _ =>
              .ok ({ funge with input := ⟨rest⟩ },
                   [{ ip with stack := ip.stack.push (ord c) }], false)
        else if op = 64 then .ok (funge, [], false) -- delete this IP
        else if op = 32 then -- space: advance and execute the next op
          match ip.advance funge fl false with
          | none => .error .Fuel
          | some ip2 => IP.exe fl ip2 funge (ip2.op funge) n_ips
        else if op = 91 then .ok (funge, [ip.turn_left], false)
        else if op = 93 then .ok (funge, [ip.turn_right], false)
        else if op = 39 then -- fetch char
          match ip.next_pos funge fl ip.position with
          | none => .error .Fuel
          | some p =>
            let ip2 := { ip with position := p }
            .ok (funge, [{ ip2 with stack := ip2.stack.push (ip2.op funge) }], true)
        else if op = 123 then -- begin block
          let rn := ip.stack.pop
          match castIsize rn.1 with
          | .error e => .error e
          | .ok n =>
            let cr := if 0 < n then popN n.toNat rn.2 else ([], rn.2)
            let st1 := if 0 < n then cr.2
                       else (List.replicate (-n).toNat (0 : Int)).foldl StackStack.push cr.2
            let cells := cr.1.reverse
            match castCell funge.wbits ip.offset.1, castCell funge.wbits ip.offset.2 with
            | .ok ox, .ok oy =>
              let st2 := ((st1.push ox).push oy).push_stack Stack.new
              let st3 := cells.foldl StackStack.push st2
              match ip.next_pos funge fl ip.position with
              | none => .error .Fuel
              | some p =>
                .ok (funge, [{ ip with stack := st3, offset := p }], false)
            | .error e, _ => .error e
            | _, .error e => .error e
        else if op = 125 then -- end block
          if ip.stack.len_stack ≤ 1 then .ok (funge, [ip.reflect], false)
          else
            let rn := ip.stack.pop
            match castIsize rn.1 with
            | .error e => .error e
            | .ok n =>
              let cr := if 0 < n then popN n.toNat rn.2 else ([], rn.2)
              let cells := cr.1.reverse
              let st1 := cr.2.pop_stack.2
              let ry := st1.pop
              let rx := ry.2.pop
              match castIsize ry.1, castIsize rx.1 with
              | .ok y, .ok x =>
                let st2 := if 0 < n then cells.foldl StackStack.push rx.2
                           else (popN (-n).toNat rx.2).2
                .ok (funge, [{ ip with stack := st2, offset := (x, y) }], false)
              | .error e, _ => .error e
              | _, .error e => .error e
        else if op = 61 then .error .Unmodeled -- shell execute
        else if op = 40 then -- load fingerprint: pop the name, reflect
          let rn := ip.stack.pop
          if 0 ≤ rn.1 ∧ rn.1 < 2 ^ 64 then
            .ok (funge, [({ ip with stack := (popN rn.1.toNat rn.2).2 }).reflect], false)
          else .error .Casting
        else if op = 41 then -- unload fingerprint: pop the name, reflect
          let rn := ip.stack.pop
          if 0 ≤ rn.1 ∧ rn.1 < 2 ^ 64 then
            .ok (funge, [({ ip with stack := (popN rn.1.toNat rn.2).2 }).reflect], false)
          else .error .Casting
        else if op = 105 then .error .Unmodeled -- file input
        else if op = 106 then -- jump n cells
          let rn := ip.stack.pop
          match castIsize rn.1 with
          | .error e => .error e
          | .ok n =>
            let ip1 := { ip with stack := rn.2 }
            let ip2 := if n < 0 then ip1.reflect else ip1
            match ip2.movepN funge fl n.natAbs with
            | none => .error .Fuel
            | some ip3 =>
              let ip4 := if n < 0 then ip3.reflect else ip3
              .ok (funge, [ip4], true)
        else if op = 107 then .error .Unmodeled -- iterate, recurses the decoder
        else if op = 110 then .ok (funge, [{ ip with stack := ip.stack.clear }], false)
        else if op = 111 then .error .Unmodeled -- file output
        else if op = 113 then -- quit
          let r := ip.stack.pop
          match castI32 r.1 with
          | .ok rc => .error (.Quit rc)
          | .error e => .error e
        else if op = 114 then .ok (funge, [ip.reflect], false)
        else if op = 115 then -- store next cell
          match ip.next_pos funge fl ip.position with
          | none => .error .Fuel
          | some p =>
            let ip2 := { ip with position := p }
            let r := ip2.stack.pop
            .ok (funge.insert r.1 (ip2.position.1, ip2.position.2),
                 [{ ip2 with stack := r.2 }], false)
        else if op = 116 then -- split a new IP
          .ok (funge, [(ip.split n_ips).reflect, ip], false)
        else if op = 117 then -- stack under stack
          if ip.stack.len_stack ≤ 1 then .ok (funge, [ip.reflect], false)
          else
            let rn := ip.stack.pop
            match castIsize rn.1 with
            | .error e => .error e
            | .ok n =>
              let st := if 0 < n then uMoveUp n.toNat rn.2
                        else if n < 0 then uMoveDown (-n).toNat rn.2
                        else rn.2
              .ok (funge, [{ ip with stack := st }], false)
        else if op = 119 then -- compare and turn
          let r1 := ip.stack.pop
          let r2 := r1.2.pop
          let ip1 := { ip with stack := r2.2 }
          let ip2 := if r2.1 < r1.1 then ip1.turn_left
                     else if r2.1 > r1.1 then ip1.turn_right
                     else ip1
          .ok (funge, [ip2], false)
        else if op = 120 then -- absolute delta
          let ry := ip.stack.pop
          let rx := ry.2.pop
          match castIsize ry.1, castIsize rx.1 with
          | .ok dy, .ok dx =>
            .ok (funge, [{ ip with stack := rx.2, delta := (dx, dy) }], false)
          | .error e, _ => .error e
          | _, .error e => .error e
        else if op = 121 then .error .Unmodeled -- sysinfo, clock and environment
        else if op = 122 then .ok (funge, [ip], false) -- no-op
        else if 48 ≤ op ∧ op ≤ 57 then
          .ok (funge, [{ ip with stack := ip.stack.push (op - 48) }], false)
        else if 97 ≤ op ∧ op ≤ 102 then
          .ok (funge, [{ ip with stack := ip.stack.push (op - 87) }], false)
        else ip.not_implemented funge
      else ip.not_implemented funge
    else ip.not_implemented funge

/-- IP::step: decode the cell under the pointer, execute it, then advance
every resulting IP honoring the skip flag. -/
def IP.step (fl : Nat) (ip : IP) (funge : Funge) (n_ips : Nat) :
    Except FungeError (Funge × List IP) :=
  match IP.exe fl ip funge (ip.op funge) n_ips with
  | .error e => .error e
  | .ok (funge2, ips, skip) =>
    match ips.mapM (fun i =>
        match i.advance funge2 fl skip with
        | none => Except.error FungeError.Fuel
        | some j => Except.ok j) with
    | .error e => .error e
    | .ok ips2 => .ok (funge2, ips2)

/-- The loop body of Funge::step: the source reverses the IP vector and
pops from its end, so the IPs are processed in their original order; the
decoder never reads the ips field of the engine while it runs. -/
def Funge.stepIps (fl : Nat) : List IP → Funge → Nat →
    Except FungeError (Funge × List IP)
  | [], funge, _ => .ok (funge, [])
  | ip :: rest, funge, n_ips =>
    match IP.step fl ip funge n_ips with
    | .error e => .error e
    | .ok (funge2, ips1) =>
      match Funge.stepIps fl rest funge2 n_ips with
      | .error e => .error e
      | .ok (funge3, ips2) => .ok (funge3, ips1 ++ ips2)

/-- Funge::step: one tick advances every live IP once, collects the new IP
vector, increments the step counter, and quits with code 0 when no IP
remains. -/
def Funge.step (fl : Nat) (f : Funge) : Except FungeError Funge :=
  let n_ips := f.ips.length
  match Funge.stepIps fl f.ips { f with ips := [] } n_ips with
  | .error e => .error e
  | .ok (f2, newIps) =>
    let f3 := { f2 with ips := newIps, steps := f2.steps + 1 }
    if f3.ips.length = 0 then .error (.Quit 0) else .ok f3

/-- Funge::run: loop Funge::step until an error; Quit yields the return
code, every other error is returned unchanged to the host. -/
def Funge.run (fl : Nat) : Nat → Funge → Except FungeError Int
  | 0, _ => .error .Fuel
  | n + 1, f =>
    match Funge.step fl f with
    | .ok f2 => Funge.run fl n f2
    | .error (.Quit rc) => .ok rc
    | .error e => .error e

/-- IP::new: the initial IP at the origin moving right; when the origin
cell is a space or a semicolon the IP advances to the first valid cell
before the first tick. -/
def IP.new (fl : Nat) (funge : Funge) : Option IP :=
  let ip : IP := ⟨0, (0, 0), (1, 0), (0, 0), false, StackStack.new, []⟩
  if ip.op funge = 32 ∨ ip.op funge = 59 then ip.advance funge fl false
  else some ip

/-- Funge::new on the source already split into lines.  The shebang strip
of the source compares against the name of the running executable and is a
host effect outside the model. -/
def Funge.new (fl : Nat) (lines : List (List Char)) (wbits : Nat) : Option Funge :=
  let fs := FungeSpace.new lines
  let f : Funge :=
    { extent := fs.orig_rect, code := fs, rules := Rules.new, steps := 0,
      ips := [], input := ⟨[]⟩, output := ⟨[]⟩, wbits := wbits }
  (IP.new fl f).map (fun ip => { f with ips := [ip] })

/-- Iterated Funge::step. -/
def stepN (fl : Nat) : Nat → Funge → Except FungeError Funge
  | 0, f => .ok f
  | n + 1, f =>
    match Funge.step fl f with
    | .ok f2 => stepN fl n f2
    | .error e => .error e

/-- Build an engine from source lines at the default 64 bit width and run n
ticks, as a single Option valued computation for concrete evaluations. -/
def newAndStep (fl : Nat) (lines : List (List Char)) (n : Nat) : Option Funge :=
  (Funge.new fl lines 64).bind (fun f => (stepN fl n f).toOption)

/-- Mirrors struct FungeDelta of src/debug.rs. -/
structure FungeDelta where
  code : List (Pos × Int)
  ips : List IP
  output : Nat
  input : List (List Char)
deriving DecidableEq, Repr

/-- Mirrors struct FungeHist of src/debug.rs.  The newest delta (the end of
the Rust Vec) is the head of the history list. -/
structure FungeHist where
  maxlen : Nat
  history : List FungeDelta
  last : Option Funge
deriving DecidableEq, Repr

/-- FungeHist::new: note the bound 16348 of the source. -/
def FungeHist.new : FungeHist := ⟨16348, [], none⟩

/-- FungeHist::len. -/
def FungeHist.len (h : FungeHist) : Nat := h.history.length

/-- The dense row diff of FungeHist::push for row y: on a changed row,
record the old cell value at every differing column.  Row lengths never
change, so the tail loop of the source past the shorter length is empty;
it is kept with getD totalising the indexing. -/
def denseRowDiff (y : Nat) (lo ln : List Int) : List (Pos × Int) :=
  if lo = ln then []
  else
    ((List.range (min lo.length ln.length)).filterMap (fun x =>
      if lo.getD x 32 ≠ ln.getD x 32 then some (((x : Int), (y : Int)), lo.getD x 32)
      else none)) ++
    ((List.range' (min lo.length ln.length)
        (max lo.length ln.length - min lo.length ln.length)).map (fun (x : Nat) =>
      (((x : Int), (y : Int)), lo.getD x 32)))

/-- All dense row diffs of FungeHist::push. -/
def denseDiff (old new : Funge) : List (Pos × Int) :=
  ((old.code.orig_code.zip new.code.orig_code).enum.map (fun e =>
    denseRowDiff e.1 e.2.1 e.2.2)).flatten

/-- The overlay diff of FungeHist::push: for every overlay entry of the new
state whose value differs from the old state, the source records the NEW
value (not the prior one as for dense rows). -/
def overlayDiff (old new : Funge) : List (Pos × Int) :=
  new.code.new_code.filterMap (fun e =>
    if e.2 ≠ old.code.get e.1 then some (e.1, e.2) else none)

/-- FungeHist::push: on a successful step record the delta (cell diffs, the
prior IP vector, the count of appended output entries, the consumed input
tokens) and trim the history at maxlen; on a failed step keep the old state
as the last snapshot. -/
def FungeHist.push (h : FungeHist) (old : Funge) (newr : Except FungeError Funge) :
    FungeHist :=
  match newr with
  | .ok new =>
    let code := denseDiff old new ++ overlayDiff old new
    let consumed := old.input.len - new.input.len
    let delta : FungeDelta :=
      ⟨code, old.ips, new.output.len - old.output.len,
       (old.input.store.take consumed).reverse⟩
    let hist := delta :: h.history
    let hist2 := if hist.length > h.maxlen then hist.dropLast else hist
    { h with history := hist2 }
  | .error _ => { h with last := some old }

/-- FungeHist::pop: on a live state, replay the newest delta (write the
recorded cell values back, restore the IP vector, truncate the output,
push back the consumed input, decrement the step counter); with an empty
history the state is returned unchanged.  On an errored state the last
snapshot is taken (none when there was no snapshot, where the source
panics). -/
def FungeHist.pop (h : FungeHist) (fr : Except FungeError Funge) :
    FungeHist × Option Funge :=
  match fr with
  | .ok f =>
    match h.history with
    | [] => (h, some f)
    | d :: rest =>
      let f1 := d.code.foldl (fun acc e => { acc with code := acc.code.insert e.1 e.2 }) f
      let f2 := { f1 with ips := d.ips }
      let f3 := { f2 with output := ⟨(List.range d.output).foldl (fun l _ => l.dropLast) f2.output.store⟩ }
      let f4 := { f3 with input := ⟨d.input.reverse ++ f3.input.store⟩ }
      let f5 := { f4 with steps := f4.steps - 1 }
      ({ h with history := rest }, some f5)
  | .error _ => ({ h with last := none }, h.last)

/- Theorems.  Shared helper lemmas and concrete demonstration states come
first, then one theorem per claim with its witness or counterexample. -/

instance {ε α : Type} [DecidableEq ε] [DecidableEq α] : DecidableEq (Except ε α)
  | .error e1, .error e2 =>
    if h : e1 = e2 then .isTrue (by rw [h])
    else .isFalse (by intro hh; cases hh; exact h rfl)
  | .error _, .ok _ => .isFalse (by intro hh; cases hh)
  | .ok _, .error _ => .isFalse (by intro hh; cases hh)
  | .ok a1, .ok a2 =>
    if h : a1 = a2 then .isTrue (by rw [h])
    else .isFalse (by intro hh; cases hh; exact h rfl)

/-- A one-cell demonstration funge-space holding a single at-sign. -/
def demoSpace : FungeSpace := ⟨[[64]], ⟨0, 1, 0, 1⟩, [], 32⟩

/-- A demonstration engine over demoSpace with the default rules. -/
def demoFunge : Funge :=
  ⟨⟨0, 1, 0, 1⟩, demoSpace, Rules.new, 0, [], ⟨[]⟩, ⟨[]⟩, 64⟩

/-- A demonstration IP at the origin moving right. -/
def demoIP : IP := ⟨0, (0, 0), (1, 0), (0, 0), false, StackStack.new, []⟩

/-- C9: popping an empty Stack returns zero and leaves it empty, and
popping a StackStack whose current (top) stack is empty returns zero and
leaves the stack-stack unchanged; both operations are total functions of
the embedding, so no error can be raised, and the cell value zero does not
depend on the cell width. -/
theorem c9_pop_empty_yields_zero :
    (∀ s : Stack, s.stack = [] → s.pop = (0, s)) ∧
    (∀ (ss : StackStack) (rest : List Stack),
      ss.stackstack = ⟨[]⟩ :: rest → ss.pop = (0, ss)) := by
  constructor
  · intro s hs
    cases s
    simp_all [Stack.pop]
  · intro ss rest hss
    cases ss
    simp_all [StackStack.pop, StackStack.check_stack, Stack.pop]

/-- Witness for C9 at concrete empty stacks. -/
theorem c9_pop_empty_yields_zero_witness :
    Stack.pop ⟨[]⟩ = (0, ⟨[]⟩) ∧ StackStack.pop ⟨[⟨[]⟩]⟩ = (0, ⟨[⟨[]⟩]⟩) :=
  ⟨c9_pop_empty_yields_zero.1 ⟨[]⟩ rfl, c9_pop_empty_yields_zero.2 ⟨[⟨[]⟩]⟩ [] rfl⟩

/-- C8: executing the end-block op 125 with a single stack on the
stack-stack, or the under-stack op 117 with fewer than two stacks, reflects
the IP (delta negated, all other IP fields and the whole engine unchanged)
and returns normally, so the condition is handled locally and not
propagated as an error. -/
theorem c8_stack_underflow_reflects (fl n_ips : Nat) (ip : IP) (f : Funge)
    (hs : ip.string = false) (hfp : ip.fingerprint_ops = [])
    (hr : f.rules = Rules.new) (hstk : ip.stack.len_stack ≤ 1) :
    IP.exe (fl + 1) ip f 125 n_ips = .ok (f, [ip.reflect], false) ∧
    IP.exe (fl + 1) ip f 117 n_ips = .ok (f, [ip.reflect], false) := by
  have h125 : (125 : Int) ∈ Rules.new.instruction_set := by decide
  have h117 : (117 : Int) ∈ Rules.new.instruction_set := by decide
  constructor <;>
    simp [IP.exe, hs, hfp, hr, h125, h117, hstk, Nat.le_of_lt_succ]

/-- Witness for C8 at a concrete IP holding one empty stack. -/
theorem c8_stack_underflow_reflects_witness :
    demoIP.stack.len_stack ≤ 1 ∧
    IP.exe 6 demoIP demoFunge 125 1 = .ok (demoFunge, [demoIP.reflect], false) := by
  refine ⟨by decide, ?_⟩
  exact (c8_stack_underflow_reflects 5 1 demoIP demoFunge rfl rfl rfl (by decide)).1

/-- Popping a stack-stack whose top stack has a head cell. -/
theorem stackstack_pop_cons (v : Int) (s : List Int) (rest : List Stack) :
    StackStack.pop ⟨⟨v :: s⟩ :: rest⟩ = (v, ⟨⟨s⟩ :: rest⟩) := by
  simp [StackStack.pop, StackStack.check_stack, Stack.pop]

/-- Pushing onto a nonempty stack-stack prepends to the top stack. -/
theorem stackstack_push_cons (c : Int) (s : List Int) (rest : List Stack) :
    StackStack.push ⟨⟨s⟩ :: rest⟩ c = ⟨⟨c :: s⟩ :: rest⟩ := by
  simp [StackStack.push, StackStack.check_stack, Stack.push]

/-- Folding a run of zero pushes over a nonempty stack-stack prepends the
run to the top stack. -/
theorem push_replicate_zeros (k : Nat) (s : List Int) (rest : List Stack) :
    (List.replicate k (0 : Int)).foldl StackStack.push ⟨⟨s⟩ :: rest⟩ =
      ⟨⟨List.replicate k 0 ++ s⟩ :: rest⟩ := by
  induction k generalizing s with
  | zero => simp
  | succ k ih =>
    rw [List.replicate_succ, List.foldl_cons, stackstack_push_cons, ih (0 :: s)]
    simp [List.replicate_succ (n := k), List.append_assoc]
    rw [show (0 : Int) :: s = [0] ++ s by rfl, ← List.append_assoc,
        ← List.replicate_succ' (n := k)]
    simp [List.replicate_succ]

/-- C3: with a token available in the input store, the ampersand op skips
leading non-digit characters of the token, takes the maximal run of
decimal digits, parses it into the cell type and pushes the value; when
that parse fails (no digits, or overflow of the cell width) the IP reflects
and its stack is unchanged.  In both cases the token is consumed. -/
theorem c3_amp_reads_integer_or_reflects (fl n_ips : Nat) (ip : IP) (f : Funge)
    (tok : List Char) (rest : List (List Char))
    (hs : ip.string = false) (hfp : ip.fingerprint_ops = [])
    (hr : f.rules = Rules.new) (hin : f.input.store = tok :: rest) :
    IP.exe (fl + 1) ip f 38 n_ips =
      .ok ({ f with input := ⟨rest⟩ },
        [match parseCell f.wbits
            ((tok.dropWhile (fun c => !c.isDigit)).takeWhile (fun c => c.isDigit)) with
         | some v => { ip with stack := ip.stack.push v }
         | none => ip.reflect],
        false) := by
  have h38 : (38 : Int) ∈ Rules.new.instruction_set := by decide
  have hin2 : f.input = ⟨tok :: rest⟩ := by
    cases h : f.input
    simp_all
  simp only [IP.exe, hs, hfp, hr, h38, hin2]
  norm_num
  cases hp : parseCell f.wbits
      ((tok.dropWhile (fun c => !c.isDigit)).takeWhile (fun c => c.isDigit)) <;>
    simp [hp]

/-- Witness for C3 at a token whose digits parse to 65. -/
theorem c3_amp_reads_integer_or_reflects_witness :
    IP.exe 6 demoIP { demoFunge with input := ⟨[['x', '6', '5', 'y']]⟩ } 38 1 =
      .ok ({ demoFunge with input := ⟨[]⟩ },
        [{ demoIP with stack := demoIP.stack.push 65 }], false) := by
  have h := c3_amp_reads_integer_or_reflects 5 1 demoIP
    { demoFunge with input := ⟨[['x', '6', '5', 'y']]⟩ }
    ['x', '6', '5', 'y'] [] rfl rfl rfl rfl
  simpa using h

/-- The concrete IP of the C2 counterexample: offset (7, 9) and a single
stack holding only the cell -2. -/
def c2ip : IP := ⟨0, (0, 0), (1, 0), (7, 9), false, ⟨[⟨[-2]⟩]⟩, []⟩

/-- Counterexample for C2: executing the begin-block op 123 with n = -2
leaves the freshly pushed top stack EMPTY and puts the two zeros (below
offset_x, offset_y) on the old stack; the claim predicts top stack [0, 0]
and old stack [9, 7] (tops at the heads), which differs. -/
theorem c2_brace_negative_counterexample :
    (match IP.exe 9 c2ip demoFunge 123 1 with
     | .ok (_, [ip2], _) => some (ip2.stack.stackstack.map Stack.stack)
     | _ => none) = some [[], [9, 7, 0, 0]] ∧
    ([[], [9, 7, 0, 0]] : List (List Int)) ≠ [[0, 0], [9, 7]] := by
  exact ⟨by decide, by decide⟩

/-- C2 amended: when the begin-block op 123 pops a negative n, the abs n
zeros are pushed onto the OLD stack, below the offset pair (offset_x then
offset_y, so offset_y ends on top of the old stack), the new top stack is
created empty, and the storage offset becomes the next position of the
IP. -/
theorem c2_brace_negative_zeros_on_old_stack (fl n_ips : Nat) (ip : IP) (f : Funge)
    (n : Int) (s : List Int) (rest : List Stack)
    (hs : ip.string = false) (hfp : ip.fingerprint_ops = [])
    (hr : f.rules = Rules.new)
    (hstk : ip.stack = ⟨⟨n :: s⟩ :: rest⟩)
    (hn : n < 0) (hncast : -(2 ^ 63) ≤ n)
    (hox : castCell f.wbits ip.offset.1 = .ok ip.offset.1)
    (hoy : castCell f.wbits ip.offset.2 = .ok ip.offset.2)
    (hpos : ip.check_pos ip.position f) :
    IP.exe (fl + 1) ip f 123 n_ips =
      .ok (f, [{ ip with
        stack := ⟨Stack.new ::
          ⟨ip.offset.2 :: ip.offset.1 :: (List.replicate (-n).toNat 0 ++ s)⟩ :: rest⟩,
        offset := add ip.position ip.delta }], false) := by
  have h123 : (123 : Int) ∈ Rules.new.instruction_set := by decide
  have hcast : castIsize n = .ok n := by
    unfold castIsize
    rw [if_pos ⟨hncast, by omega⟩]
  have hnpos : ¬ (0 < n) := by omega
  simp only [IP.exe, hs, hfp, hr, h123, hstk]
  norm_num [stackstack_pop_cons, hcast, hnpos, hox, hoy]
  rw [push_replicate_zeros, stackstack_push_cons, stackstack_push_cons]
  simp [IP.next_pos, if_pos hpos, StackStack.push_stack, add]

/-- Witness for C2 amended at the counterexample IP: n = -2 over the
demonstration engine. -/
theorem c2_brace_negative_zeros_on_old_stack_witness :
    IP.exe 9 c2ip demoFunge 123 1 =
      .ok (demoFunge, [{ c2ip with
        stack := ⟨Stack.new :: ⟨9 :: 7 :: (List.replicate 2 0 ++ [])⟩ :: []⟩,
        offset := add (0, 0) (1, 0) }], false) := by
  have h := c2_brace_negative_zeros_on_old_stack 8 1 c2ip demoFunge (-2) [] []
    rfl rfl rfl rfl (by decide) (by decide) (by decide) (by decide) (by decide)
  simpa using h

/-- C4 amended: the t op clones the executing IP via IP::split, reflects
the clone and schedules it before its parent; the id of the clone is
n_ips, the number of live IPs at the start of the tick, so two IPs that
both execute t within one tick produce clones with the SAME id. -/
theorem c4_t_spawn_id_is_tick_ip_count (fl n_ips : Nat) (ip : IP) (f : Funge)
    (hs : ip.string = false) (hfp : ip.fingerprint_ops = [])
    (hr : f.rules = Rules.new) :
    IP.exe (fl + 1) ip f 116 n_ips = .ok (f, [(ip.split n_ips).reflect, ip], false) ∧
    (ip.split n_ips).id = n_ips := by
  have h116 : (116 : Int) ∈ Rules.new.instruction_set := by decide
  constructor
  · simp [IP.exe, hs, hfp, hr, h116]
  · simp [IP.split]

/-- Witness for C4 amended: a t executed by the demonstration IP in a tick
with 3 live IPs spawns a clone with id 3. -/
theorem c4_t_spawn_id_is_tick_ip_count_witness :
    IP.exe 6 demoIP demoFunge 116 3 =
      .ok (demoFunge, [(demoIP.split 3).reflect, demoIP], false) ∧
    (demoIP.split 3).id = 3 :=
  c4_t_spawn_id_is_tick_ip_count 5 3 demoIP demoFunge rfl rfl rfl

/-- Counterexample for C4: on the one-line program ttt, after two ticks the
live IPs carry the ids 2, 1, 2, 0 - the two IPs that executed t during the
second tick both handed out the id 2, so ids are NOT unique among live
IPs. -/
theorem c4_duplicate_ids_counterexample :
    (newAndStep 99 [['t', 't', 't']] 2).map (fun f =>
      (f.ips.map IP.id, decide (f.ips.map IP.id).Nodup)) = some ([2, 1, 2, 0], false) := by
  decide

/-- The IP produced by IP::new has id 0, and it still sits at the origin
whenever the origin cell is neither a space nor a semicolon. -/
theorem IP.new_id_pos (fl : Nat) (funge : Funge) (ip : IP)
    (h : IP.new fl funge = some ip) :
    ip.id = 0 ∧
    (funge.code.get (0, 0) ≠ 32 ∧ funge.code.get (0, 0) ≠ 59 → ip.position = (0, 0)) := by
  simp only [IP.new, IP.advance, IP.op, IP.op_at] at h
  by_cases hc : funge.code.get (0, 0) = 32 ∨ funge.code.get (0, 0) = 59
  · rw [if_pos hc] at h
    obtain ⟨p, hp, rfl⟩ := Option.map_eq_some'.mp h
    exact ⟨rfl, fun hne => absurd hc (by push_neg; exact hne)⟩
  · rw [if_neg hc] at h
    cases h
    exact ⟨rfl, fun _ => rfl⟩

/-- C7 amended: after Funge::new on any source the engine holds exactly one
IP, and its id is 0; its position is (0, 0) provided the cell at the origin
is neither a space (32) nor a semicolon (59) - for sources starting with a
space or a comment the initial IP has already advanced past them. -/
theorem c7_new_single_ip_id_zero (fl wbits : Nat) (lines : List (List Char)) (f : Funge)
    (hf : Funge.new fl lines wbits = some f) :
    f.ips.length = 1 ∧ (∀ ip ∈ f.ips, ip.id = 0) ∧
    (f.code.get (0, 0) ≠ 32 ∧ f.code.get (0, 0) ≠ 59 →
      ∀ ip ∈ f.ips, ip.position = (0, 0)) := by
  simp only [Funge.new] at hf
  obtain ⟨ip, hip, rfl⟩ := Option.map_eq_some'.mp hf
  have h2 := IP.new_id_pos fl _ ip hip
  refine ⟨rfl, ?_, ?_⟩
  · intro i hi
    simp only [List.mem_singleton] at hi
    subst hi
    exact h2.1
  · intro hne i hi
    simp only [List.mem_singleton] at hi
    subst hi
    exact h2.2 hne

/-- Witness for C7 amended at a one-cell program whose origin is an
at-sign. -/
theorem c7_new_single_ip_id_zero_witness :
    (∃ f, Funge.new 9 [['@']] 64 = some f ∧ f.ips.length = 1 ∧
      ∀ ip ∈ f.ips, ip.id = 0 ∧ ip.position = (0, 0)) := by
  cases hf : Funge.new 9 [['@']] 64 with
  | none => exact absurd hf (by decide)
  | some f =>
    obtain ⟨h1, h2, h3⟩ := c7_new_single_ip_id_zero 9 64 [['@']] f hf
    have hval : (Funge.new 9 [['@']] 64).map (fun g => g.code.get (0, 0)) = some 64 := by
      decide
    rw [hf, Option.map_some'] at hval
    have hval2 : f.code.get (0, 0) = 64 := Option.some.inj hval
    have hcell : f.code.get (0, 0) ≠ 32 ∧ f.code.get (0, 0) ≠ 59 := by
      rw [hval2]; exact ⟨by decide, by decide⟩
    exact ⟨f, rfl, h1, fun ip hip => ⟨h2 ip hip, h3 hcell ip hip⟩⟩

/-- Counterexample for C7: on the source consisting of a space followed by
an at-sign, the single IP created by Funge::new sits at (1, 0), not at
(0, 0). -/
theorem c7_leading_space_counterexample :
    (Funge.new 99 [[' ', '@']] 64).map (fun f => f.ips.map IP.position) = some [(1, 0)] ∧
    ((1, 0) : Pos) ≠ ((0, 0) : Pos) :=
  ⟨by decide, by decide⟩

/-- Whenever Funge::step returns an error that is not Quit, Funge::run
returns that error unchanged. -/
theorem run_propagates_error (fl n : Nat) (f : Funge) (e : FungeError)
    (hq : ∀ rc, e ≠ FungeError.Quit rc) (hstep : Funge.step fl f = .error e) :
    Funge.run fl (n + 1) f = .error e := by
  unfold Funge.run
  rw [hstep]
  cases e
  case Quit rc => exact absurd rfl (hq rc)
  all_goals rfl

/-- The concrete IP of the C10 witness: sitting on a comma with -1 on the
stack. -/
def c10ip : IP := ⟨0, (0, 0), (1, 0), (0, 0), false, ⟨[⟨[-1]⟩]⟩, []⟩

/-- The concrete engine of the C10 witness: a one-cell comma program. -/
def c10funge : Funge :=
  ⟨⟨0, 1, 0, 1⟩, ⟨[[44]], ⟨0, 1, 0, 1⟩, [], 32⟩, Rules.new, 0, [c10ip], ⟨[]⟩, ⟨[]⟩, 64⟩

/-- C10: when the comma op pops a cell that is not a valid Unicode scalar
value (negative, a surrogate code point, or above 0x10FFFF), the char
conversion error of chr is fatal: IP::exe propagates it, the whole
Funge::step fails with it, and Funge::run returns it to the host (it is
not a Quit, so the engine halts with the error); the IP is not reflected
and execution does not continue. -/
theorem c10_comma_invalid_char_fatal (fl n : Nat) (ip : IP) (f : Funge)
    (v : Int) (s2 : StackStack)
    (hips : f.ips = [ip])
    (hop : f.code.get ip.position = 44)
    (hs : ip.string = false) (hfp : ip.fingerprint_ops = [])
    (hr : f.rules = Rules.new)
    (hpop : ip.stack.pop = (v, s2))
    (hbad : v < 0 ∨ (55296 ≤ v ∧ v ≤ 57343) ∨ 1114111 < v) :
    ∃ e, chr v = .error e ∧ (∀ rc, e ≠ FungeError.Quit rc) ∧
      Funge.step (fl + 1) f = .error e ∧
      Funge.run (fl + 1) (n + 1) f = .error e := by
  have h44 : (44 : Int) ∈ Rules.new.instruction_set := by decide
  obtain ⟨e, he, hq⟩ : ∃ e, chr v = .error e ∧ ∀ rc, e ≠ FungeError.Quit rc := by
    by_cases h1 : v < 0 ∨ 4294967295 < v
    · refine ⟨.Casting, ?_, fun rc h => FungeError.noConfusion h⟩
      unfold chr
      rw [if_pos h1]
    · have h2 : (55296 ≤ v ∧ v ≤ 57343) ∨ 1114111 < v := by
        rcases hbad with h | h | h
        · exact absurd (Or.inl h) h1
        · exact Or.inl h
        · exact Or.inr h
      refine ⟨.CharCast, ?_, fun rc h => FungeError.noConfusion h⟩
      unfold chr
      rw [if_neg h1, if_pos h2]
  have hexe : ∀ (k : Nat) (g : Funge), g.rules = Rules.new →
      IP.exe (fl + 1) ip g 44 k = .error e := by
    intro k g hgr
    simp [IP.exe, hs, hfp, hgr, h44, hpop, he]
  have hstep : Funge.step (fl + 1) f = .error e := by
    unfold Funge.step
    rw [hips]
    simp [Funge.stepIps, IP.step, IP.op, IP.op_at, hop, hexe, hr]
  exact ⟨e, he, hq, hstep, run_propagates_error (fl + 1) n f e hq hstep⟩

/-- Witness for C10 at the concrete engine where a comma pops -1. -/
theorem c10_comma_invalid_char_fatal_witness :
    c10funge.code.get c10ip.position = 44 ∧
    (∃ e, chr (-1) = .error e ∧ (∀ rc, e ≠ FungeError.Quit rc) ∧
      Funge.step 6 c10funge = .error e ∧ Funge.run 6 4 c10funge = .error e) := by
  refine ⟨by decide, ?_⟩
  exact c10_comma_invalid_char_fatal 5 3 c10ip c10funge (-1) ⟨[⟨[]⟩]⟩
    rfl (by decide) rfl rfl rfl (by decide) (by norm_num)

/-- A position returned by the space skipping loop does not hold a
space. -/
theorem skipSpaces_ne_space (ip : IP) (f : Funge) :
    ∀ (n : Nat) (pos q : Pos), ip.skipSpaces f n pos = some q → ip.op_at f q ≠ 32 := by
  intro n
  induction n with
  | zero =>
    intro pos q h
    exact absurd h (by simp [IP.skipSpaces])
  | succ n ih =>
    intro pos q h
    simp only [IP.skipSpaces] at h
    by_cases hc : ip.op_at f pos = 32
    · rw [if_pos hc] at h
      obtain ⟨p, _, h2⟩ := Option.bind_eq_some.mp h
      exact ih p q h2
    · rw [if_neg hc] at h
      cases h
      exact hc

/-- A position returned by the outer loop of next_valid_pos outside
stringmode holds neither a space nor a semicolon. -/
theorem nvpLoop_valid (ip : IP) (f : Funge) :
    ∀ (n : Nat) (pos q : Pos), ip.nvpLoop f n pos = some q →
      ip.op_at f q ≠ 32 ∧ ip.op_at f q ≠ 59 := by
  intro n
  induction n with
  | zero =>
    intro pos q h
    exact absurd h (by simp [IP.nvpLoop])
  | succ n ih =>
    intro pos q h
    simp only [IP.nvpLoop] at h
    obtain ⟨p, _, h2⟩ := Option.bind_eq_some.mp h
    obtain ⟨p2, hsp, h3⟩ := Option.bind_eq_some.mp h2
    by_cases hne59 : ip.op_at f p2 ≠ 59
    · rw [if_pos hne59] at h3
      cases h3
      exact ⟨skipSpaces_ne_space ip f n p q hsp, hne59⟩
    · rw [if_neg hne59] at h3
      exact ih p2 q h3

/-- C5 amended: outside stringmode, whenever next_valid_pos returns (the
advance of IP::step), the position it returns holds neither a space nor a
semicolon; therefore, on any engine all of whose cells outside the extent
read as spaces, a non-stringmode IP always comes to rest inside the
extent.  (A stringmode IP can come to rest exactly one step outside the
extent, see the counterexample.) -/
theorem c5_nonstring_advance_lands_inside_extent (fl : Nat) (skip : Bool) (ip : IP)
    (f : Funge) (q : Pos)
    (hs : ip.string = false)
    (hout : ∀ r : Pos, ¬ ip.check_pos r f → f.code.get r = 32)
    (hres : ip.next_valid_pos f fl skip = some q) :
    ip.check_pos q f := by
  simp only [IP.next_valid_pos, hs] at hres
  norm_num at hres
  obtain ⟨p, _, h2⟩ := Option.bind_eq_some.mp hres
  have h3 := nvpLoop_valid ip f fl p q h2
  by_contra hq
  exact h3.1 (hout q hq)

/-- Cells outside the extent of the demonstration engine read as spaces. -/
theorem demoFunge_outside (r : Pos) (hr : ¬ demoIP.check_pos r demoFunge) :
    demoFunge.code.get r = 32 := by
  show demoSpace.get r = 32
  unfold FungeSpace.get
  rw [if_neg]
  · rfl
  · intro hc
    exact hr (by simpa [IP.check_pos, demoFunge, demoSpace, Rect.contains] using hc)

/-- Witness for C5 amended: the demonstration IP advances from the single
at-sign cell, wraps, and lands back inside the extent. -/
theorem c5_nonstring_advance_lands_inside_extent_witness :
    demoIP.string = false ∧ demoIP.check_pos (0, 0) demoFunge := by
  refine ⟨rfl, ?_⟩
  exact c5_nonstring_advance_lands_inside_extent 9 false demoIP demoFunge (0, 0)
    rfl demoFunge_outside (by decide)

/-- Counterexample for C5: on the one-line program consisting of a
double-quote then the letters a and b, the IP turns on stringmode and after
three ticks rests at (3, 0) while the extent ends at x = 3, so its position
is OUTSIDE the extent after Funge::step returns. -/
theorem c5_stringmode_exits_extent_counterexample :
    (newAndStep 99 [[Char.ofNat 34, 'a', 'b']] 3).map (fun f =>
      (f.ips.map IP.position, f.extent.right,
       f.ips.map (fun i => decide (i.check_pos i.position f)))) =
    some ([(3, 0)], 3, [false]) := by
  decide

/-- The m-th cell backward along delta from a start position. -/
def rayPos (start d : Pos) (m : Int) : Pos := (start.1 - m * d.1, start.2 - m * d.2)

/-- A wrap fuel that always suffices: one more than the extent width plus
the extent height. -/
def laheyFuel (f : Funge) : Nat :=
  (f.extent.right - f.extent.left).toNat + (f.extent.bottom - f.extent.top).toNat + 2

/-- Half-open interval membership along a line is convex: if the cells a
and c steps backward along d both lie between lo and hi, so does every cell
b steps backward with a between b and c. -/
theorem between_interval (lo hi v d a b c : Int) (hab : a ≤ b) (hbc : b ≤ c)
    (ha1 : lo ≤ v - a * d) (ha2 : v - a * d < hi)
    (hc1 : lo ≤ v - c * d) (hc2 : v - c * d < hi) :
    lo ≤ v - b * d ∧ v - b * d < hi := by
  rcases le_or_lt 0 d with hd | hd
  · have h1 : (0 : Int) ≤ (c - b) * d := mul_nonneg (by omega) hd
    have h2 : (0 : Int) ≤ (b - a) * d := mul_nonneg (by omega) hd
    constructor <;> nlinarith
  · have h1 : (c - b) * d ≤ 0 := mul_nonpos_of_nonneg_of_nonpos (by omega) hd.le
    have h2 : (b - a) * d ≤ 0 := mul_nonpos_of_nonneg_of_nonpos (by omega) hd.le
    constructor <;> nlinarith

/-- When the cells one and m steps backward along a nonzero coordinate
velocity both lie in a half-open interval, m is bounded by its length. -/
theorem ray_bound (lo hi x dx m : Int)
    (hdx : dx ≠ 0) (hm : 1 ≤ m)
    (h11 : lo ≤ x - dx) (h12 : x - dx < hi)
    (hm1 : lo ≤ x - m * dx) (hm2 : x - m * dx < hi) :
    m - 1 < hi - lo := by
  rcases lt_or_gt_of_ne hdx with hneg | hpos
  · have h0 : (0 : Int) ≤ (m - 1) * (-dx - 1) := mul_nonneg (by omega) (by omega)
    nlinarith
  · have h0 : (0 : Int) ≤ (m - 1) * (dx - 1) := mul_nonneg (by omega) (by omega)
    nlinarith

/-- Equality of positions from equality of the coordinates. -/
theorem posEq (a b : Pos) (h1 : a.1 = b.1) (h2 : a.2 = b.2) : a = b := by
  cases a
  cases b
  simp_all

/-- The predicate of the wrap analysis: the cell m steps backward along the
delta of the IP from the start position lies inside the extent. -/
def wrapP (ip : IP) (f : Funge) (pos : Pos) (m : Nat) : Prop :=
  ip.check_pos (rayPos pos ip.delta (m : Int)) f

instance (ip : IP) (f : Funge) (pos : Pos) : DecidablePred (wrapP ip f pos) := fun m => by
  unfold wrapP
  infer_instance

/-- The wrap loop of IP::next_pos walks backward along delta exactly to the
last consecutive in-extent cell: if the cells 1..k backward are inside the
extent and the cell k+1 backward is outside, the loop returns the cell k
backward, for any fuel above k. -/
theorem wrapLoop_reaches (ip : IP) (f : Funge) :
    ∀ (k : Nat) (pos : Pos),
      (∀ j : Nat, 1 ≤ j → j ≤ k → ip.check_pos (rayPos pos ip.delta (j : Int)) f) →
      ¬ ip.check_pos (rayPos pos ip.delta (((k + 1 : Nat)) : Int)) f →
      ∀ fl : Nat, k < fl → ip.wrapLoop f fl pos = some (rayPos pos ip.delta (k : Int)) := by
  intro k
  induction k with
  | zero =>
    intro pos _ hko fl hfl
    obtain ⟨fl2, rfl⟩ : ∃ m, fl = m + 1 := ⟨fl - 1, by omega⟩
    have hs1 : sub pos ip.delta = rayPos pos ip.delta (((0 + 1 : Nat)) : Int) := by
      refine posEq _ _ ?_ ?_ <;> (dsimp only [rayPos, sub] ; push_cast ; ring)
    simp only [IP.wrapLoop]
    rw [if_neg (hs1 ▸ hko)]
    congr 1
    refine posEq _ _ ?_ ?_ <;> (dsimp only [rayPos, add, sub] ; push_cast ; ring)
  | succ k ih =>
    intro pos hin hko fl hfl
    obtain ⟨fl2, rfl⟩ : ∃ m, fl = m + 1 := ⟨fl - 1, by omega⟩
    have hshift : ∀ (j : Int), rayPos (sub pos ip.delta) ip.delta j =
        rayPos pos ip.delta (j + 1) := by
      intro j
      refine posEq _ _ ?_ ?_ <;> (dsimp only [rayPos, sub] ; ring)
    have hin2 : ∀ j : Nat, 1 ≤ j → j ≤ k →
        ip.check_pos (rayPos (sub pos ip.delta) ip.delta (j : Int)) f := by
      intro j hj1 hjk
      rw [hshift, show ((j : Int) + 1) = (((j + 1 : Nat)) : Int) by push_cast ; ring]
      exact hin (j + 1) (by omega) (by omega)
    have hko2 : ¬ ip.check_pos (rayPos (sub pos ip.delta) ip.delta (((k + 1 : Nat)) : Int)) f := by
      rw [hshift, show (((k + 1 : Nat) : Int) + 1) = (((k + 1 + 1 : Nat)) : Int) by push_cast ; ring]
      exact hko
    have hcheck : ip.check_pos (sub pos ip.delta) f := by
      have hs1 : sub pos ip.delta = rayPos pos ip.delta ((1 : Nat) : Int) := by
        refine posEq _ _ ?_ ?_ <;> (dsimp only [rayPos, sub] ; push_cast ; ring)
      rw [hs1]
      exact hin 1 le_rfl (by omega)
    have hrec := ih (sub pos ip.delta) hin2 hko2 fl2 (by omega)
    simp only [IP.wrapLoop]
    rw [if_pos hcheck, hrec]
    congr 1
    rw [hshift]
    norm_cast

/-- C6: when one advance by delta from a position inside the extent lands
outside the extent, IP::next_pos applied to the landed position wraps to
the farthest cell backward along delta (equivalently: along minus delta
from the start) that is still inside the extent: it returns the cell k
steps backward for a k that is at least 1, that cell is inside the extent,
and every backward count m whose cell is inside the extent satisfies
m ≤ k. -/
theorem c6_lahey_wrap_farthest_cell (f : Funge) (ip : IP)
    (hin : ip.check_pos ip.position f)
    (hout : ¬ ip.check_pos (add ip.position ip.delta) f) :
    ∃ k : Nat, 1 ≤ k ∧
      ip.next_pos f (laheyFuel f) (add ip.position ip.delta) =
        some (rayPos (add ip.position ip.delta) ip.delta (k : Int)) ∧
      ip.check_pos (rayPos (add ip.position ip.delta) ip.delta (k : Int)) f ∧
      (∀ m : Nat, 1 ≤ m →
        ip.check_pos (rayPos (add ip.position ip.delta) ip.delta (m : Int)) f → m ≤ k) := by
  have hray1 : rayPos (add ip.position ip.delta) ip.delta ((1 : Nat) : Int) = ip.position := by
    refine posEq _ _ ?_ ?_ <;> (dsimp only [rayPos, add] ; push_cast ; ring)
  have hdne : ip.delta.1 ≠ 0 ∨ ip.delta.2 ≠ 0 := by
    by_contra hc
    push_neg at hc
    apply hout
    have he : add ip.position ip.delta = ip.position := by
      refine posEq _ _ ?_ ?_ <;> simp [add, hc.1, hc.2]
    rw [he]
    exact hin
  have hP1 : wrapP ip f (add ip.position ip.delta) 1 := by
    unfold wrapP
    rw [hray1]
    exact hin
  have hinb : f.extent.left ≤ ip.position.1 ∧ ip.position.1 < f.extent.right ∧
      f.extent.top ≤ ip.position.2 ∧ ip.position.2 < f.extent.bottom := hin
  obtain ⟨hl, hr2, ht, hb⟩ := hinb
  have hB1 : 1 ≤ (f.extent.right - f.extent.left).toNat +
      (f.extent.bottom - f.extent.top).toNat := by omega
  have hbound : ∀ m : Nat, 1 ≤ m → wrapP ip f (add ip.position ip.delta) m →
      m ≤ (f.extent.right - f.extent.left).toNat +
          (f.extent.bottom - f.extent.top).toNat := by
    intro m hm hPm
    have hPm2 : f.extent.left ≤ ip.position.1 + ip.delta.1 - (m : Int) * ip.delta.1 ∧
        ip.position.1 + ip.delta.1 - (m : Int) * ip.delta.1 < f.extent.right ∧
        f.extent.top ≤ ip.position.2 + ip.delta.2 - (m : Int) * ip.delta.2 ∧
        ip.position.2 + ip.delta.2 - (m : Int) * ip.delta.2 < f.extent.bottom := hPm
    obtain ⟨p1, p2, p3, p4⟩ := hPm2
    rcases hdne with hdx | hdy
    · have hray := ray_bound f.extent.left f.extent.right
        (ip.position.1 + ip.delta.1) ip.delta.1 (m : Int) hdx (by exact_mod_cast hm)
        (by linarith) (by linarith) p1 p2
      omega
    · have hray := ray_bound f.extent.top f.extent.bottom
        (ip.position.2 + ip.delta.2) ip.delta.2 (m : Int) hdy (by exact_mod_cast hm)
        (by linarith) (by linarith) p3 p4
      omega
  have hPk : wrapP ip f (add ip.position ip.delta)
      (Nat.findGreatest (wrapP ip f (add ip.position ip.delta))
        ((f.extent.right - f.extent.left).toNat + (f.extent.bottom - f.extent.top).toNat)) :=
    Nat.findGreatest_spec hB1 hP1
  have hk1 : 1 ≤ Nat.findGreatest (wrapP ip f (add ip.position ip.delta))
      ((f.extent.right - f.extent.left).toNat + (f.extent.bottom - f.extent.top).toNat) :=
    Nat.le_findGreatest hB1 hP1
  have hkle := Nat.findGreatest_le (P := wrapP ip f (add ip.position ip.delta))
      (n := (f.extent.right - f.extent.left).toNat + (f.extent.bottom - f.extent.top).toNat)
  have hmax : ∀ m : Nat, 1 ≤ m → wrapP ip f (add ip.position ip.delta) m →
      m ≤ Nat.findGreatest (wrapP ip f (add ip.position ip.delta))
        ((f.extent.right - f.extent.left).toNat + (f.extent.bottom - f.extent.top).toNat) := by
    intro m hm hPm
    by_contra hc
    push_neg at hc
    exact absurd hPm (Nat.findGreatest_is_greatest hc (hbound m hm hPm))
  set k := Nat.findGreatest (wrapP ip f (add ip.position ip.delta))
      ((f.extent.right - f.extent.left).toNat + (f.extent.bottom - f.extent.top).toNat)
    with hkdef
  have hknot : ¬ ip.check_pos
      (rayPos (add ip.position ip.delta) ip.delta (((k + 1 : Nat)) : Int)) f := by
    intro hc
    have hPk1 : wrapP ip f (add ip.position ip.delta) (k + 1) := hc
    have := hmax (k + 1) (by omega) hPk1
    omega
  have hall : ∀ j : Nat, 1 ≤ j → j ≤ k →
      ip.check_pos (rayPos (add ip.position ip.delta) ip.delta (j : Int)) f := by
    intro j h1 h2
    have ha : f.extent.left ≤ (add ip.position ip.delta).1 - ((1 : Nat) : Int) * ip.delta.1 ∧
        (add ip.position ip.delta).1 - ((1 : Nat) : Int) * ip.delta.1 < f.extent.right ∧
        f.extent.top ≤ (add ip.position ip.delta).2 - ((1 : Nat) : Int) * ip.delta.2 ∧
        (add ip.position ip.delta).2 - ((1 : Nat) : Int) * ip.delta.2 < f.extent.bottom := hP1
    have hc : f.extent.left ≤ (add ip.position ip.delta).1 - (k : Int) * ip.delta.1 ∧
        (add ip.position ip.delta).1 - (k : Int) * ip.delta.1 < f.extent.right ∧
        f.extent.top ≤ (add ip.position ip.delta).2 - (k : Int) * ip.delta.2 ∧
        (add ip.position ip.delta).2 - (k : Int) * ip.delta.2 < f.extent.bottom := hPk
    obtain ⟨a1, a2, a3, a4⟩ := ha
    obtain ⟨c1, c2, c3, c4⟩ := hc
    have hx := between_interval f.extent.left f.extent.right
      (add ip.position ip.delta).1 ip.delta.1 ((1 : Nat) : Int) (j : Int) (k : Int)
      (by exact_mod_cast h1) (by exact_mod_cast h2) a1 a2 c1 c2
    have hy := between_interval f.extent.top f.extent.bottom
      (add ip.position ip.delta).2 ip.delta.2 ((1 : Nat) : Int) (j : Int) (k : Int)
      (by exact_mod_cast h1) (by exact_mod_cast h2) a3 a4 c3 c4
    exact ⟨hx.1, hx.2, hy.1, hy.2⟩
  have hloop := wrapLoop_reaches ip f k (add ip.position ip.delta) hall hknot
    (laheyFuel f) (by
      simp only [laheyFuel]
      omega)
  refine ⟨k, hk1, ?_, hPk, hmax⟩
  unfold IP.next_pos
  rw [if_neg hout]
  exact hloop

/-- Witness for C6: from (2, 0) moving right in a 3 by 1 extent, the
advance lands at (3, 0) outside the extent and the wrap returns the
farthest in-extent cell along minus delta. -/
theorem c6_lahey_wrap_farthest_cell_witness :
    (⟨0, (2, 0), (1, 0), (0, 0), false, StackStack.new, []⟩ : IP).check_pos (2, 0)
      { demoFunge with extent := ⟨0, 3, 0, 1⟩ } ∧
    (∃ k : Nat, 1 ≤ k ∧
      (⟨0, (2, 0), (1, 0), (0, 0), false, StackStack.new, []⟩ : IP).next_pos
          { demoFunge with extent := ⟨0, 3, 0, 1⟩ }
          (laheyFuel { demoFunge with extent := ⟨0, 3, 0, 1⟩ })
          (add (2, 0) (1, 0)) =
        some (rayPos (add (2, 0) (1, 0)) (1, 0) (k : Int)) ∧
      (⟨0, (2, 0), (1, 0), (0, 0), false, StackStack.new, []⟩ : IP).check_pos
        (rayPos (add (2, 0) (1, 0)) (1, 0) (k : Int))
        { demoFunge with extent := ⟨0, 3, 0, 1⟩ } ∧
      (∀ m : Nat, 1 ≤ m →
        (⟨0, (2, 0), (1, 0), (0, 0), false, StackStack.new, []⟩ : IP).check_pos
          (rayPos (add (2, 0) (1, 0)) (1, 0) (m : Int))
          { demoFunge with extent := ⟨0, 3, 0, 1⟩ } → m ≤ k)) := by
  refine ⟨by decide, ?_⟩
  exact c6_lahey_wrap_farthest_cell { demoFunge with extent := ⟨0, 3, 0, 1⟩ }
    ⟨0, (2, 0), (1, 0), (0, 0), false, StackStack.new, []⟩ (by decide) (by decide)

/-- The starting state of the C1 analysis: the one-line program 105p@
after three ticks, so that the single IP sits on the p op with the stack
holding 1, 0, 5 (bottom to top). -/
def c1Start : Option Funge := newAndStep 99 [['1', '0', '5', 'p', '@']] 3

/-- C1 fails on the code: one recorded Funge::step followed by one
FungeHist::pop does NOT restore the starting funge-space.  From c1Start the
step executes p, which writes the cell value 1 at (0, 5) in the sparse
overlay (the start read 32 there); FungeHist::push records the NEW overlay
value 1 instead of the prior 32 (src/debug.rs line 63), so FungeHist::pop
writes 1 back and the round-tripped state reads 1 at (0, 5) while the
start reads 32 - they differ cell-for-cell even though the IP vector and
the step counter are restored.  This contradicts the round-trip already at
k = 1. -/
theorem c1_history_pop_reapplies_new_overlay_value :
    (c1Start.map (fun old =>
      match Funge.step 99 old with
      | .ok nf =>
        match ((FungeHist.new.push old (.ok nf)).pop (.ok nf)).2 with
        | some rt => some (rt.code.get (0, 5), old.code.get (0, 5),
                           decide (rt.ips = old.ips), decide (rt.steps = old.steps),
                           decide (rt.output.len = old.output.len),
                           decide (rt.input.len = old.input.len))
        | none => none
      | .error _ => none)) = some (some (1, 32, true, true, true, true)) ∧
    (1 : Int) ≠ 32 := by
  exact ⟨by rfl, by decide⟩

end RustyFunge
